import Mathlib

/-!
Shallow embedding of the `koguma/tetrisguma` falling-block puzzle engine
(sources: `src/utils.ts`, `src/tetrominos.ts`, `src/state.ts`, with types
from `types.ts` and constants from `const.ts`), together with theorems
settling the specification claims about it.

Conventions of the embedding:
* a JS 2D array (`Matrix<T>`) is a `List (List α)`;
* a `Shape` cell is a `Nat` (the sources use the numbers 0/1), JS truthiness
  of a number is `≠ 0`;
* a `Floor` cell is `Option Colour` (`none` is the empty cell `0`, `some c`
  a locked block), JS truthiness is `Option.isSome`;
* out-of-range JS indexing (`xs[i]` yielding `undefined`) only ever happens
  behind explicit bound guards in the sources; it is rendered with `getD`
  and a default that the guards make unreachable;
* the linear-congruential step is modelled with exact natural-number
  arithmetic `(a*seed + c) % 2^31`; the JS original computes the product in
  IEEE doubles and may round for large seeds, but no claim below depends on
  a concrete hash value;
* `lockDelayCount` accumulates the float `FRAME_MS = 1000/60`; it is
  modelled as an exact rational, again no claim depends on float rounding.
-/

namespace Tetris

/-! ## Constants (`const.ts`) -/

namespace Constants

def FRAME_MS : ℚ := 1000 / 60

def LOCK_DELAY : ℚ := 500

def GRID_WIDTH : Nat := 10

def GRID_HEIGHT : Nat := 20

def SEED : Nat := 20

def LEVEL_CUTOFF : Nat := 2

end Constants

/-- Frames needed for a tetromino to move to the next row, per level. -/
def GRAVITY : List Nat :=
  [48, 43, 38, 33, 28, 23, 18, 13, 8, 6,
   5, 5, 5,
   4, 4, 4,
   3, 3, 3,
   2, 2, 2, 2, 2, 2, 2, 2, 2, 2,
   1]

/-! ## Basic types (`types.ts`) -/

/-- All possible colours a tetromino or a floor cell can carry. -/
inductive Colour where
  | cyan | blue | orange | yellow | green | purple | red | grey | brown
deriving DecidableEq, Repr

/-- A floor cell: `none` is the empty cell `0`, `some c` a locked block. -/
abbrev Cell := Option Colour

/-- A shape cell is a JS number, `0` for empty. -/
abbrev Shape := List (List Nat)

/-- The game floor: a grid of cells. -/
abbrev Floor := List (List Cell)

/-- JS truthiness for the two cell types that the generic matrix helpers
are used at (`Boolean(x)` in the sources). -/
class JsTruthy (α : Type) where
  truthy : α → Bool

instance : JsTruthy Nat := ⟨fun n => n != 0⟩

instance : JsTruthy Cell := ⟨fun c => c.isSome⟩

export JsTruthy (truthy)

/-- A 2D position in board cell units (`Pos` in `types.ts`). -/
structure Pos where
  x : Int
  y : Int
deriving DecidableEq, Repr

def Pos.subtract (p q : Pos) : Pos := ⟨p.x - q.x, p.y - q.y⟩

def Pos.add (p q : Pos) : Pos := ⟨p.x + q.x, p.y + q.y⟩

/-! ## Matrix and misc utilities (`utils.ts`) -/

/-- `chain(f)(e)(n)`: chains a function call `n` times. -/
def chain (f : α → α) (e : α) (n : Nat) : α :=
  (List.range n).foldl (fun a _ => f a) e

/-- `pureReverse`: reverse via `reduce((a, e) => [e, ...a], [])`. -/
def pureReverse (arr : List α) : List α :=
  arr.foldl (fun a e => e :: a) []

/-- `withinBound(matrix)(x, y)`: bounds test against a matrix. -/
def withinBound (matrix : List (List α)) (x y : Int) : Bool :=
  x ≥ 0 && y ≥ 0 && x < (matrix.headD []).length && y < matrix.length

/-- `rotateMatrixRight`: reverse the rows, then read columns;
`matrix[0].map((_, i) => reversedRows.map(row => row[i]))`. -/
def rotateMatrixRight [Inhabited α] (matrix : List (List α)) : List (List α) :=
  let reversedRows := pureReverse matrix
  (List.range (matrix.headD []).length).map fun i =>
    reversedRows.map fun row => row.getD i default

/-- `rotateMatrixLeft`: three right rotations. -/
def rotateMatrixLeft [Inhabited α] (matrix : List (List α)) : List (List α) :=
  chain rotateMatrixRight matrix 3

/-- `transposeMatrix`: `matrix[0].map((_, i) => matrix.map(row => row[i]))`. -/
def transposeMatrix [Inhabited α] (matrix : List (List α)) : List (List α) :=
  (List.range (matrix.headD []).length).map fun i =>
    matrix.map fun row => row.getD i default

/-- `simillarMatrix(m1)(m2)`: whether `m2` equals one of the four right
rotations of `m1` (the sources compare `toString` images; on the
rectangular 0/1 matrices this test is used at, that is cell-wise
equality, rendered here as structural equality). -/
def simillarMatrix [Inhabited α] [DecidableEq α]
    (matrix1 matrix2 : List (List α)) : Bool :=
  (List.range 4).any fun n => chain rotateMatrixRight matrix1 n = matrix2

/-- `firstFilledRow`: index of the first row with a truthy cell, `-1` if
none (`findIndex(row => row.filter(Boolean).length)`). -/
def firstFilledRow [JsTruthy α] (matrix : List (List α)) : Int :=
  match matrix.findIdx? (fun row => (row.filter truthy).length != 0) with
  | some i => (i : Int)
  | none => -1

/-- `lastFilledRow`: `matrix.length - 1 - firstFilledRow(pureReverse(matrix))`. -/
def lastFilledRow [JsTruthy α] (matrix : List (List α)) : Int :=
  (matrix.length : Int) - 1 - firstFilledRow (pureReverse matrix)

/-- `firstFilledCol`: `firstFilledRow(transposeMatrix(matrix))`. -/
def firstFilledCol [JsTruthy α] [Inhabited α] (matrix : List (List α)) : Int :=
  firstFilledRow (transposeMatrix matrix)

/-- `lastFilledCol`:
`matrix[0].length - 1 - firstFilledRow(pureReverse(transposeMatrix(matrix)))`. -/
def lastFilledCol [JsTruthy α] [Inhabited α] (matrix : List (List α)) : Int :=
  ((matrix.headD []).length : Int) - 1 -
    firstFilledRow (pureReverse (transposeMatrix matrix))

/-- `bestPosition(step)(direction)(shape)`: centering offset
`(step - (last - first + 1)) / 2 - first` (exact JS number division,
modelled as a rational). -/
inductive Axis where
  | x | y
deriving DecidableEq, Repr

def bestPosition (step : Int) (direction : Axis) (shape : Shape) : ℚ :=
  let lastFilled : Int :=
    match direction with | .x => lastFilledCol shape | .y => lastFilledRow shape
  let firstFilled : Int :=
    match direction with | .x => firstFilledCol shape | .y => firstFilledRow shape
  ((step : ℚ) - ((lastFilled : ℚ) - (firstFilled : ℚ) + 1)) / 2 - (firstFilled : ℚ)

/-! ## RNG (`utils.ts`) -/

/-- `RNG.hash`: linear congruential step `(a*seed + c) % m` with
`a = 1103515245`, `c = 12345`, `m = 0x80000000`. -/
def RNG.hash (seed : Nat) : Nat :=
  (1103515245 * seed + 12345) % 0x80000000

/-- A lazy RNG object is fully determined by its current `value`; the
successor's value is the hash of the current value (in the source the
object is `{value: hash(seed), next: () => _next(hash(seed))}`). -/
structure LazyRNG where
  value : Nat
deriving DecidableEq, Repr

def LazyRNG.next (r : LazyRNG) : LazyRNG := ⟨RNG.hash r.value⟩

/-- `lazyRNG(seed)`: the chain starting at `hash(seed)`. -/
def lazyRNG (seed : Nat) : LazyRNG := ⟨RNG.hash seed⟩

/-! ## Tetromino shapes (`tetrominos.ts`) -/

def IBlock : Shape :=
  [[0, 0, 0, 0, 0],
   [0, 0, 0, 0, 0],
   [0, 1, 1, 1, 1],
   [0, 0, 0, 0, 0],
   [0, 0, 0, 0, 0]]

def JBlock : Shape :=
  [[1, 0, 0],
   [1, 1, 1],
   [0, 0, 0]]

def LBlock : Shape :=
  [[0, 0, 1],
   [1, 1, 1],
   [0, 0, 0]]

def OBlock : Shape :=
  [[0, 1, 1],
   [0, 1, 1],
   [0, 0, 0]]

def SBlock : Shape :=
  [[0, 1, 1],
   [1, 1, 0],
   [0, 0, 0]]

def TBlock : Shape :=
  [[0, 1, 0],
   [1, 1, 1],
   [0, 0, 0]]

def ZBlock : Shape :=
  [[1, 1, 0],
   [0, 1, 1],
   [0, 0, 0]]

/-! ## Wall kicks (`tetrominos.ts`) -/

namespace WallKick

def JLSTZ_OFFSETS : List (List Pos) :=
  [[⟨0, 0⟩, ⟨0, 0⟩, ⟨0, 0⟩, ⟨0, 0⟩, ⟨0, 0⟩],
   [⟨0, 0⟩, ⟨1, 0⟩, ⟨1, 1⟩, ⟨0, -2⟩, ⟨1, -2⟩],
   [⟨0, 0⟩, ⟨0, 0⟩, ⟨0, 0⟩, ⟨0, 0⟩, ⟨0, 0⟩],
   [⟨0, 0⟩, ⟨-1, 0⟩, ⟨-1, 1⟩, ⟨0, -2⟩, ⟨-1, -2⟩]]

def I_OFFSETS : List (List Pos) :=
  [[⟨0, 0⟩, ⟨-1, 0⟩, ⟨2, 0⟩, ⟨-1, 0⟩, ⟨2, 0⟩],
   [⟨-1, 0⟩, ⟨0, 0⟩, ⟨0, 0⟩, ⟨0, -1⟩, ⟨0, 2⟩],
   [⟨-1, -1⟩, ⟨1, -1⟩, ⟨-2, -1⟩, ⟨1, 0⟩, ⟨-2, 0⟩],
   [⟨0, -1⟩, ⟨0, -1⟩, ⟨0, -1⟩, ⟨0, 1⟩, ⟨0, -2⟩]]

def O_OFFSETS : List (List Pos) :=
  [[⟨0, 0⟩],
   [⟨0, 1⟩],
   [⟨-1, 1⟩],
   [⟨-1, 0⟩]]

end WallKick

/-! ## The tetromino (`tetrominos.ts`) -/

structure Tetromino where
  shape : Shape
  colour : Colour
  pos : Pos
  rotationState : Int
deriving DecidableEq, Repr

/-- The offset-table choice of `WallKick.getData`: the `from` piece's
shape is tested (in any orientation) against the long-bar and the square
shapes; the remaining five families share a table. -/
def WallKick.offsetsFor (shape : Shape) : List (List Pos) :=
  let shapeIs := simillarMatrix shape
  if shapeIs IBlock then WallKick.I_OFFSETS
  else if shapeIs OBlock then WallKick.O_OFFSETS
  else WallKick.JLSTZ_OFFSETS

/-- `WallKick.getData(from, to)`: pick the offset table by shape family,
then pairwise-subtract the `from` and `to` rows (the source maps over
`current` indexing `next` at the same position: the rows of one table all
have the same length, so this is `zipWith subtract`). -/
def WallKick.getData (t to' : Tetromino) : List Pos :=
  let offsets := WallKick.offsetsFor t.shape
  let current := offsets.getD t.rotationState.toNat []
  let next := offsets.getD to'.rotationState.toNat []
  List.zipWith Pos.subtract current next

namespace Tetromino

def moveBy (t : Tetromino) (d : Pos) : Tetromino :=
  { t with pos := t.pos.add d }

def moveTo (t : Tetromino) (newPos : Pos) : Tetromino :=
  { t with pos := newPos }

/-- `overlaps(f)`: some filled shape cell sits on a filled floor cell
(out-of-floor coordinates never count as overlap). -/
def overlaps (t : Tetromino) (f : Floor) : Bool :=
  t.shape.enum.any fun (y, row) =>
    row.enum.any fun (x, cell) =>
      let relY := t.pos.y + y
      let relX := t.pos.x + x
      if withinBound f relX relY then
        ((f.getD relY.toNat []).getD relX.toNat none).isSome && cell != 0
      else false

/-- `validPos(f)`: the true bounding box lies within the walls (with a top
buffer of 2 rows) and the piece overlaps no filled floor cell. -/
def validPos (t : Tetromino) (f : Floor) : Bool :=
  let withinSpecialBound :=
    decide (t.pos.x + firstFilledCol t.shape ≥ 0) &&
    decide (t.pos.x + lastFilledCol t.shape + 1 ≤ ((f.headD []).length : Int)) &&
    decide (t.pos.y + firstFilledRow t.shape ≥ -2) &&
    decide (t.pos.y + lastFilledRow t.shape + 1 ≤ (f.length : Int))
  withinSpecialBound && !t.overlaps f

/-- `__rotate(to, f)`: try the wall-kick offsets in order, return the first
valid placement of the rotated piece, or the un-rotated piece if none is
valid. -/
def «__rotate» (t to' : Tetromino) (f : Floor) : Tetromino :=
  let wallKickData := WallKick.getData t to'
  let possibleTetrominos :=
    (wallKickData.map fun pos => to'.moveBy pos).filter fun x => x.validPos f
  if possibleTetrominos.length == 0 then t else possibleTetrominos.headD t

/-- The rotation-state update of `rotateLeft`: decrement modulo 4, with
the JS remainder fixed up (`state -1 === state 3`). -/
def leftNextState (r : Int) : Int :=
  let nextState := (r - 1).tmod 4
  if nextState ≥ 0 then nextState else 4 + nextState

/-- The tentative piece built by `rotateLeft` before wall-kick testing:
counterclockwise-rotated shape at the same position. -/
def tentativeLeft (t : Tetromino) : Tetromino :=
  ⟨rotateMatrixLeft t.shape, t.colour, t.pos, leftNextState t.rotationState⟩

/-- The tentative piece built by `rotateRight` before wall-kick testing:
clockwise-rotated shape at the same position, rotation state incremented
modulo 4. -/
def tentativeRight (t : Tetromino) : Tetromino :=
  ⟨rotateMatrixRight t.shape, t.colour, t.pos, (t.rotationState + 1).tmod 4⟩

/-- `rotateLeft(f)`: rotate 90° counterclockwise with wall kicks. -/
def rotateLeft (t : Tetromino) (f : Floor) : Tetromino :=
  t.«__rotate» (tentativeLeft t) f

/-- `rotateRight(f)`: rotate 90° clockwise with wall kicks. -/
def rotateRight (t : Tetromino) (f : Floor) : Tetromino :=
  t.«__rotate» (tentativeRight t) f

/-- The accumulator-passing `pureReverse` is list reversal. -/
theorem pureReverse_eq_reverse (arr : List α) : pureReverse arr = arr.reverse := by
  have aux : ∀ (l acc : List α), l.foldl (fun a e => e :: a) acc = l.reverse ++ acc := by
    intro l
    induction l with
    | nil => intro acc; rfl
    | cons x xs ih => intro acc; simp [List.foldl_cons, ih]
  unfold pureReverse
  rw [aux arr [], List.append_nil]

/-- On every step of `drop` the piece's bottom would-be row is bounded by
the floor height: `lastFilledRow` is never negative. -/
theorem lastFilledRow_nonneg [JsTruthy α] (m : List (List α)) :
    0 ≤ lastFilledRow m := by
  unfold lastFilledRow firstFilledRow
  rcases h : (pureReverse m).findIdx? (fun row => (row.filter truthy).length != 0)
    with _ | i
  · simp only [h]
    omega
  · have hi : i < (pureReverse m).length :=
      (List.findIdx?_eq_some_iff_getElem.mp h).1
    rw [pureReverse_eq_reverse, List.length_reverse] at hi
    simp only [h]
    omega

/-- `drop(f)`: move down one row while the result stays valid. -/
def drop (t : Tetromino) (f : Floor) : Tetromino :=
  if h : (t.moveBy ⟨0, 1⟩).validPos f = false then t
  else (t.moveBy ⟨0, 1⟩).drop f
termination_by ((f.length : Int) + 2 - t.pos.y).toNat
decreasing_by
  have hval : (t.moveBy ⟨0, 1⟩).validPos f = true := by
    revert h; cases (t.moveBy ⟨0, 1⟩).validPos f <;> simp
  unfold validPos at hval
  simp only [Bool.and_eq_true, decide_eq_true_eq, moveBy, Pos.add] at hval
  have hnn := lastFilledRow_nonneg t.shape
  simp only [moveBy, Pos.add]
  omega

end Tetromino

/-! ## The tetromino factory (`tetrominos.ts`) -/

namespace TetrominoFactory

/-- The seven canonical pieces, in factory order. -/
def TETROMINOES : List (Shape × Colour) :=
  [(IBlock, .cyan), (JBlock, .blue), (LBlock, .orange), (OBlock, .yellow),
   (SBlock, .green), (TBlock, .purple), (ZBlock, .red)]

/-- `centerXPosition`: centered x spawn offset over the grid width. -/
def centerXPosition (shape : Shape) : ℚ :=
  bestPosition Constants.GRID_WIDTH .x shape

/-- `getTetromino(hash)`: pick a canonical piece by `hash mod 7`, spawn it
centered horizontally with its topmost filled cell two rows above the
board. -/
def getTetromino (hash : Nat) : Tetromino :=
  let p := TETROMINOES.getD (hash % TETROMINOES.length) (IBlock, .cyan)
  { shape := p.1
    colour := p.2
    pos := ⟨⌊centerXPosition p.1⌋, -1 * firstFilledRow p.1 - 2⟩
    rotationState := 0 }

end TetrominoFactory

/-! ## Game state (`types.ts`) and event reducers (`state.ts`) -/

structure State where
  gameEnd : Bool
  score : Nat
  highScore : Nat
  level : Nat
  floor : Floor
  active : Tetromino
  next : Tetromino
  rng : LazyRNG
  cleared : Nat
  highlight : Tetromino
  lockDelayCount : ℚ
  hold : Option Tetromino
  swapped : Bool
  isPaused : Bool
  gravityOffset : Nat
  framesInCurrentRow : Nat
  opponentConnected : Bool
  recentClear : Nat
deriving DecidableEq, Repr

/-- `makeFloor(height)(colour?)`: a `height × GRID_WIDTH` grid filled with
the supplied cell (`none` when no colour is supplied). -/
def makeFloor (height : Nat) (colour : Cell) : Floor :=
  (List.range height).map fun _ =>
    (List.range Constants.GRID_WIDTH).map fun _ => colour

/-- `gameEnd(f)`: some cell of the top row is filled. -/
def gameEnd (f : Floor) : Bool :=
  (f.headD []).any fun c => c.isSome

def makeEmptyFloor : Floor := makeFloor Constants.GRID_HEIGHT none

def getTetromino : Nat → Tetromino := TetrominoFactory.getTetromino

/-- `getNextTetromino(rng)`: the piece for the successor sequence value. -/
def getNextTetromino (rng : LazyRNG) : Tetromino := getTetromino rng.next.value

/-- `updateHighlight`: recompute the ghost piece. -/
def updateHighlight (s : State) : State :=
  { s with highlight := s.active.drop s.floor }

/-- `rolloverRng`: advance the sequence and rebuild `next`/`active`. -/
def rolloverRng (s : State) : State :=
  let rng := s.rng.next
  { s with rng := rng, next := getNextTetromino rng, active := getTetromino rng.value }

def resetLock (s : State) : State := { s with lockDelayCount := 0 }

def resetGravity (s : State) : State := { s with gravityOffset := 0 }

/-- The initial RNG chain, from the fixed seed. -/
def rollingRNG : LazyRNG := lazyRNG Constants.SEED

/-- The game's initial state. -/
def initialState : State :=
  let floor := makeEmptyFloor
  let active := getTetromino rollingRNG.value
  { gameEnd := false
    score := 0
    highScore := 0
    level := 1
    floor := floor
    active := active
    next := getNextTetromino rollingRNG
    rng := rollingRNG
    cleared := 0
    lockDelayCount := 0
    highlight := active.drop floor
    hold := none
    swapped := false
    isPaused := false
    gravityOffset := 0
    framesInCurrentRow := 0
    opponentConnected := false
    recentClear := 0 }

/-- `Move.consume`: translate the active piece when the move is valid,
refreshing the ghost piece; otherwise a silent no-op. -/
def Move.consume (displacement : Pos) (s : State) : State :=
  if (s.active.moveBy displacement).validPos s.floor then
    updateHighlight { s with active := s.active.moveBy displacement }
  else s

/-- `Tick.consume`: count frames in the current row; at the gravity
interval for the level (clamped to the table's last entry) apply a
downward move and reset the counter. -/
def Tick.consume (s : State) : State :=
  let newState := { s with framesInCurrentRow := 1 + s.framesInCurrentRow }
  if newState.framesInCurrentRow ≥
      GRAVITY.getD (min (s.level - 1 + s.gravityOffset) (GRAVITY.length - 1)) 0 then
    Move.consume ⟨0, 1⟩ { newState with framesInCurrentRow := 0 }
  else newState

/-- `Down.consume`: soft-drop acceleration on/off. -/
def Down.consume (increasing : Bool) (s : State) : State :=
  if increasing then { s with gravityOffset := s.gravityOffset + 1 }
  else resetGravity s

/-- `Rotate.consume`: rotate the active piece, refreshing the ghost. -/
def Rotate.consume (direction : Int) (s : State) : State :=
  let rotated :=
    if direction > 0 then s.active.rotateRight s.floor
    else s.active.rotateLeft s.floor
  updateHighlight { s with active := rotated }

namespace LockDelay

/-- `LockDelay.merge`: stamp the active piece's filled cells onto the
floor. -/
def merge (active : Tetromino) (f : Floor) : Floor :=
  f.enum.map fun (rowIndex, row) =>
    row.enum.map fun (colIndex, cell) =>
      let y : Int := (rowIndex : Int) - active.pos.y
      let x : Int := (colIndex : Int) - active.pos.x
      if withinBound active.shape x y &&
          ((active.shape.getD y.toNat []).getD x.toNat 0 != 0) then
        some active.colour
      else cell

/-- `LockDelay.clear`: drop the full rows, prepend as many fresh empty
rows, and report how many were cleared. -/
def clear (f : Floor) : Nat × Floor :=
  let remaining := f.filter fun row => !row.all fun c => c.isSome
  let cleared := f.length - remaining.length
  let fresh := makeFloor cleared none
  (cleared, fresh ++ remaining)

/-- `LockDelay.activate`: merge the piece, clear rows, update score /
level / high score, roll the sequence, and detect game over. -/
def activate (s : State) : State :=
  let floor := merge s.active s.floor
  let cleared_floor := clear floor
  let rowsCleared := cleared_floor.1
  let newFloor := cleared_floor.2
  let score := s.score + 100 * rowsCleared ^ 2
  let newLevel := 1 + (s.cleared + rowsCleared) / Constants.LEVEL_CUTOFF
  let newState :=
    updateHighlight (rolloverRng (resetLock (resetGravity
      { s with
        floor := newFloor
        score := score
        cleared := s.cleared + rowsCleared
        level := newLevel
        swapped := false
        highScore := max s.highScore score
        recentClear := rowsCleared })))
  if gameEnd floor then { newState with gameEnd := true, next := s.next }
  else newState

/-- `LockDelay.consume`: accumulate lock delay while the piece cannot
descend, and lock once the delay threshold is reached. -/
def consume (s : State) : State :=
  let canMoveDown := (s.active.moveBy ⟨0, 1⟩).validPos s.floor
  let newState :=
    if canMoveDown then s
    else { s with lockDelayCount := s.lockDelayCount + Constants.FRAME_MS }
  if newState.lockDelayCount ≥ Constants.LOCK_DELAY && !canMoveDown then
    activate newState
  else newState

end LockDelay

/-- `Hold.consume`: stash or swap the active piece; a no-op once the swap
was already used in this drop cycle. -/
def Hold.consume (s : State) : State :=
  if s.swapped then s
  else
    let swappedState := { s with hold := some (getTetromino s.rng.value), swapped := true }
    match s.hold with
    | some held =>
        updateHighlight (resetLock (resetGravity { swappedState with active := held }))
    | none =>
        updateHighlight (rolloverRng (resetLock (resetGravity swappedState)))

/-- `Pause.consume`: set the paused flag. -/
def Pause.consume (pause : Bool) (s : State) : State :=
  { s with isPaused := pause }

/-- `Connect.consume`: set the opponent-connected flag. -/
def Connect.consume (connected : Bool) (s : State) : State :=
  { s with opponentConnected := connected }

/-- `Drop.consume`: hard-drop the active piece and lock immediately. -/
def Drop.consume (s : State) : State :=
  LockDelay.activate { s with active := s.active.drop s.floor }

/-- The `numRowsToDelete` mapping inside `GarbageOut.consume`:
`{1 → 0, 2 → 1, 3 → 2, otherwise n}`. -/
def numRowsToDelete (columns : Nat) : Nat :=
  if columns == 1 then 0
  else if columns == 2 then 1
  else if columns == 3 then 2
  else columns

/-- `GarbageOut.consume`: remove rows from the top, append garbage rows
with a single hole at `rng.value % GRID_WIDTH`, replace the active piece,
and detect loss. -/
def GarbageOut.consume (columns : Nat) (s : State) : State :=
  let n := numRowsToDelete columns
  let removed := s.floor.take n
  let holeIndex := s.rng.value % Constants.GRID_WIDTH
  let garbage :=
    (makeFloor n (some .brown)).map fun row =>
      row.take holeIndex ++ [none] ++ row.drop (holeIndex + 1)
  let floor := s.floor.drop n ++ garbage
  let active := getTetromino s.rng.value
  let newState :=
    updateHighlight (resetLock (resetGravity { s with floor := floor, active := active }))
  if gameEnd floor || removed.flatten.any (·.isSome) then
    { newState with gameEnd := true }
  else newState

/-- `Restart.consume`: back to a fresh board and zeroed scores, continuing
the live sequence. -/
def Restart.consume (s : State) : State :=
  let floor := makeEmptyFloor
  updateHighlight (rolloverRng (resetLock (resetGravity
    { s with
      gameEnd := false
      score := 0
      level := 1
      floor := floor
      cleared := 0
      swapped := false
      isPaused := false
      framesInCurrentRow := 0
      recentClear := 0
      hold := none })))

/-- The closed set of game events (`main.ts` constructs exactly these). -/
inductive GameEvent where
  | Tick
  | Down (increasing : Bool)
  | Move (displacement : Pos)
  | Rotate (direction : Int)
  | LockDelay
  | Hold
  | Pause (pause : Bool)
  | Connect (connected : Bool)
  | Drop
  | GarbageOut (columns : Nat)
  | Restart
deriving DecidableEq, Repr

/-- Dispatch `e.consume(s)`. -/
def GameEvent.consume (e : GameEvent) (s : State) : State :=
  match e with
  | .Tick => Tick.consume s
  | .Down b => Down.consume b s
  | .Move d => Move.consume d s
  | .Rotate d => Rotate.consume d s
  | .LockDelay => LockDelay.consume s
  | .Hold => Hold.consume s
  | .Pause b => Pause.consume b s
  | .Connect b => Connect.consume b s
  | .Drop => Drop.consume s
  | .GarbageOut n => GarbageOut.consume n s
  | .Restart => Restart.consume s

/-- The `instanceof Restart || instanceof Pause || instanceof Connect`
test of `reduceState`. -/
def isControlEvent (e : GameEvent) : Bool :=
  match e with
  | .Restart | .Pause _ | .Connect _ => true
  | _ => false

/-- `reduceState(s, e)`: when the game is over or paused only Restart,
Pause and Connect are processed; otherwise every event is. -/
def reduceState (s : State) (e : GameEvent) : State :=
  if s.gameEnd || s.isPaused then
    if isControlEvent e then e.consume s else s
  else e.consume s

/-- The states reachable from `initialState` by reducing any sequence of
events. -/
inductive Reachable : State → Prop where
  | init : Reachable initialState
  | step {s : State} (e : GameEvent) : Reachable s → Reachable (reduceState s e)

/-! ## Shared helper lemmas -/

/-- The head of a filtered list is the first element satisfying the
predicate. -/
theorem head?_filter_eq_find? (p : α → Bool) (l : List α) :
    (l.filter p).head? = l.find? p := by
  induction l with
  | nil => rfl
  | cons x xs ih =>
      by_cases h : p x = true
      · simp [List.filter_cons, List.find?_cons, h]
      · simp only [Bool.not_eq_true] at h
        simp [List.filter_cons, List.find?_cons, h, ih]

/-! ## Claim C9 -/

/-- C9 (code bug exhibit): on the all-empty 2×2 matrix, `firstFilledRow`
and `firstFilledCol` do return −1, but `lastFilledRow` returns the number
of rows (2) and `lastFilledCol` the number of columns (2), not the −1
promised by the claim and by the functions' own doc comments
(`matrix.length - 1 - (-1)` evaluates to `matrix.length`). -/
theorem lastFilled_on_empty_matrix :
    firstFilledRow ([[0, 0], [0, 0]] : List (List Nat)) = -1 ∧
    firstFilledCol ([[0, 0], [0, 0]] : List (List Nat)) = -1 ∧
    lastFilledRow ([[0, 0], [0, 0]] : List (List Nat)) = 2 ∧
    lastFilledCol ([[0, 0], [0, 0]] : List (List Nat)) = 2 := by
  decide

/-! ## Claim C1 -/

/-- C1: if the prior state is paused or game-over, `reduceState` applies
the event exactly when it is a Restart, Pause or Connect and otherwise
returns the state unchanged; in particular a Move is discarded, and a
Restart is applied and clears the paused flag. -/
theorem reduceState_gates_paused_or_ended (s : State) (e : GameEvent)
    (h : s.gameEnd = true ∨ s.isPaused = true) :
    (isControlEvent e = true → reduceState s e = e.consume s) ∧
    (isControlEvent e = false → reduceState s e = s) ∧
    (∀ d, reduceState s (.Move d) = s) ∧
    reduceState s .Restart = GameEvent.consume .Restart s ∧
    (reduceState s .Restart).isPaused = false := by
  have hb : (s.gameEnd || s.isPaused) = true := by
    rcases h with h | h <;> simp [h]
  unfold reduceState
  rw [hb]
  simp only [if_true, Bool.true_eq_false]
  refine ⟨fun hc => by rw [hc]; simp, fun hc => by rw [hc]; simp, ?_, ?_, ?_⟩
  · intro d; rfl
  · rfl
  · show (GameEvent.consume .Restart s).isPaused = false
    simp [GameEvent.consume, Restart.consume, updateHighlight, rolloverRng,
      resetLock, resetGravity]

/-- C1 witness: a paused concrete state; a Move is discarded there, and
Restart is applied and unpauses. -/
theorem reduceState_gates_paused_or_ended_witness :
    ({ initialState with isPaused := true } : State).isPaused = true ∧
    (∀ d, reduceState { initialState with isPaused := true } (.Move d) =
      { initialState with isPaused := true }) ∧
    (reduceState { initialState with isPaused := true } .Restart).isPaused = false := by
  have h := reduceState_gates_paused_or_ended
    { initialState with isPaused := true } (.Move ⟨1, 0⟩) (Or.inr rfl)
  exact ⟨rfl, h.2.2.1, h.2.2.2.2⟩

/-! ## Claim C8 -/

/-- C8: `Hold` is idempotent — the first application leaves the swap-used
flag set, and `Hold` is the identity on any state with the flag set, so a
second application changes nothing. -/
theorem hold_idempotent (s : State) :
    (Hold.consume s).swapped = true ∧
    Hold.consume (Hold.consume s) = Hold.consume s := by
  have hswap : (Hold.consume s).swapped = true := by
    unfold Hold.consume
    by_cases h : s.swapped = true
    · simp [h]
    · simp only [Bool.not_eq_true] at h
      rcases hh : s.hold with _ | held <;>
        simp [h, hh, updateHighlight, rolloverRng, resetLock, resetGravity]
  have hid : ∀ s' : State, s'.swapped = true → Hold.consume s' = s' := by
    intro s' h
    unfold Hold.consume
    rw [h]
    simp
  exact ⟨hswap, hid _ hswap⟩

/-! ## Claim C5 -/

/-- C5: `__rotate` returns the first wall-kick candidate (in table order)
whose placement is valid against the board, and the original un-rotated
piece — unchanged in every component — when no candidate is valid. -/
theorem rotate_first_valid_kick (t to' : Tetromino) (f : Floor) :
    t.«__rotate» to' f =
      (((WallKick.getData t to').map fun pos => to'.moveBy pos).find?
        fun x => x.validPos f).getD t := by
  simp only [Tetromino.«__rotate»]
  rw [← head?_filter_eq_find?]
  cases hm : ((WallKick.getData t to').map fun pos => to'.moveBy pos).filter
      fun x => x.validPos f with
  | nil => simp
  | cons x xs => simp

/-! ## Claim C3 -/

/-- Subtracting the rows that are not full leaves the count of full rows. -/
theorem length_sub_filter_not (p : α → Bool) (l : List α) :
    l.length - (l.filter fun x => !p x).length = l.countP p := by
  induction l with
  | nil => rfl
  | cons x xs ih =>
      have hle := List.length_filter_le (fun x => !p x) xs
      by_cases h : p x = true <;>
        simp only [List.filter_cons, List.countP_cons, h, Bool.not_true,
          Bool.not_false, if_true, if_false, List.length_cons] <;>
        simp <;> omega

/-- C3: lock-activation adds `100·cleared²` to the score, adds `cleared`
to the total lines cleared, recomputes the level as
`1 + ⌊total / LEVEL_CUTOFF⌋`, and raises the high score to the maximum of
the old high score and the new score, where `cleared` is the number of
full rows removed from the merged board. -/
theorem activate_scoring (s : State) :
    let merged := LockDelay.merge s.active s.floor
    let rowsCleared := (LockDelay.clear merged).1
    (LockDelay.activate s).score = s.score + 100 * rowsCleared ^ 2 ∧
    (LockDelay.activate s).cleared = s.cleared + rowsCleared ∧
    (LockDelay.activate s).level =
      1 + (s.cleared + rowsCleared) / Constants.LEVEL_CUTOFF ∧
    (LockDelay.activate s).highScore =
      max s.highScore (s.score + 100 * rowsCleared ^ 2) ∧
    rowsCleared = merged.countP fun row => row.all fun c => c.isSome := by
  intro merged rowsCleared
  have hcount : rowsCleared = merged.countP fun row => row.all fun c => c.isSome := by
    show (LockDelay.clear merged).1 = _
    simp only [LockDelay.clear]
    exact length_sub_filter_not _ merged
  refine ⟨?_, ?_, ?_, ?_, hcount⟩ <;>
    · unfold LockDelay.activate
      dsimp only
      split <;>
        simp [updateHighlight, rolloverRng, resetLock, resetGravity]

/-! ## Claim C10 -/

/-- Lock-activation always leaves the score below the (just-raised) high
score. -/
theorem activate_score_le_highScore (s : State) :
    (LockDelay.activate s).score ≤ (LockDelay.activate s).highScore := by
  unfold LockDelay.activate
  dsimp only
  split <;> simp [updateHighlight, rolloverRng, resetLock, resetGravity]

/-- Every single event transition preserves `score ≤ highScore`. -/
theorem consume_score_le_highScore (e : GameEvent) (s : State)
    (h : s.score ≤ s.highScore) :
    (e.consume s).score ≤ (e.consume s).highScore := by
  cases e with
  | Tick =>
      show (Tick.consume s).score ≤ (Tick.consume s).highScore
      unfold Tick.consume Move.consume
      dsimp only
      split
      · split <;> simpa [updateHighlight] using h
      · simpa using h
  | Down b =>
      show (Down.consume b s).score ≤ (Down.consume b s).highScore
      unfold Down.consume resetGravity
      split <;> simpa using h
  | Move d =>
      show (Move.consume d s).score ≤ (Move.consume d s).highScore
      unfold Move.consume
      split <;> simpa [updateHighlight] using h
  | Rotate d =>
      show (Rotate.consume d s).score ≤ (Rotate.consume d s).highScore
      unfold Rotate.consume
      simpa [updateHighlight] using h
  | LockDelay =>
      show (LockDelay.consume s).score ≤ (LockDelay.consume s).highScore
      unfold LockDelay.consume
      dsimp only
      by_cases hc : (s.active.moveBy ⟨0, 1⟩).validPos s.floor = true
      · simpa [hc] using h
      · simp only [Bool.not_eq_true] at hc
        simp only [hc, Bool.false_eq_true, if_false, Bool.not_false, Bool.and_true]
        split
        · exact activate_score_le_highScore _
        · simpa using h
  | Hold =>
      show (Hold.consume s).score ≤ (Hold.consume s).highScore
      unfold Hold.consume
      dsimp only
      split
      · exact h
      · split <;>
          simpa [updateHighlight, rolloverRng, resetLock, resetGravity] using h
  | Pause b =>
      show (Pause.consume b s).score ≤ (Pause.consume b s).highScore
      unfold Pause.consume
      simpa using h
  | Connect b =>
      show (Connect.consume b s).score ≤ (Connect.consume b s).highScore
      unfold Connect.consume
      simpa using h
  | Drop =>
      exact activate_score_le_highScore _
  | GarbageOut n =>
      show (GarbageOut.consume n s).score ≤ (GarbageOut.consume n s).highScore
      unfold GarbageOut.consume
      dsimp only
      split <;> simpa [updateHighlight, resetLock, resetGravity] using h
  | Restart =>
      show (Restart.consume s).score ≤ (Restart.consume s).highScore
      unfold Restart.consume
      simp [updateHighlight, rolloverRng, resetLock, resetGravity]

/-- C10: in every state reachable from the initial state by any sequence
of events, the high score is at least the score. -/
theorem reachable_score_le_highScore (s : State) (h : Reachable s) :
    s.score ≤ s.highScore := by
  induction h with
  | init => exact Nat.le_refl 0
  | step e _ ih =>
      unfold reduceState
      split
      · split
        · exact consume_score_le_highScore e _ ih
        · exact ih
      · exact consume_score_le_highScore e _ ih

/-- C10 witness: the invariant instantiated at the initial state. -/
theorem reachable_score_le_highScore_witness :
    initialState.score ≤ initialState.highScore :=
  reachable_score_le_highScore initialState Reachable.init

/-! ## Claim C2 -/

theorem length_makeFloor (h : Nat) (c : Cell) : (makeFloor h c).length = h := by
  simp [makeFloor]

theorem row_of_makeFloor {h : Nat} {c : Cell} {row : List Cell}
    (hr : row ∈ makeFloor h c) : row = List.replicate Constants.GRID_WIDTH c := by
  simp only [makeFloor, List.mem_map, List.mem_range] at hr
  obtain ⟨_, _, hrow⟩ := hr
  rw [← hrow]
  rw [List.map_const']
  simp

theorem initialState_floor : initialState.floor = makeEmptyFloor := rfl

/-- When the game is neither over nor paused, `reduceState` just applies
the event. -/
theorem reduceState_not_gated {s : State} (e : GameEvent)
    (h1 : s.gameEnd = false) (h2 : s.isPaused = false) :
    reduceState s e = e.consume s := by
  unfold reduceState
  rw [h1, h2]
  simp

/-- The floor produced by `GarbageOut.consume`: the top `numRowsToDelete`
rows are removed and as many garbage rows are appended. -/
theorem garbageOut_consume_floor (n : Nat) (s : State) :
    (GarbageOut.consume n s).floor =
      s.floor.drop (numRowsToDelete n) ++
        (makeFloor (numRowsToDelete n) (some .brown)).map fun row =>
          row.take (s.rng.value % Constants.GRID_WIDTH) ++ [none] ++
            row.drop (s.rng.value % Constants.GRID_WIDTH + 1) := by
  unfold GarbageOut.consume
  dsimp only
  split <;> simp [updateHighlight, resetLock, resetGravity]

/-- C2 counterexample: the mapping sends 21 to 21, but on the standard
20-row board only 20 rows can be removed from the top while 21 garbage
rows are appended, so the removed and appended counts differ (the board
even grows). -/
theorem garbage_rows_mismatch_at_21 :
    numRowsToDelete 21 = 21 ∧
    initialState.floor.length = 20 ∧
    (reduceState initialState (.GarbageOut 21)).floor.length = 21 := by
  refine ⟨rfl, ?_, ?_⟩
  · rw [initialState_floor]
    exact length_makeFloor _ _
  · rw [reduceState_not_gated _ rfl rfl]
    show (GarbageOut.consume 21 initialState).floor.length = 21
    rw [garbageOut_consume_floor]
    simp [initialState_floor, length_makeFloor, makeEmptyFloor]
    decide

/-- C2 (amended): for a non-paused, non-ended state, and provided the
mapped row count `numRowsToDelete n` is at most the board height,
`GarbageOut n` removes exactly `numRowsToDelete n` rows from the top of
the board and appends exactly as many garbage rows at the bottom, each
containing exactly one empty cell, located at column
`rng.value % GRID_WIDTH`. -/
theorem garbageOut_removes_and_appends (s : State) (n : Nat)
    (h1 : s.gameEnd = false) (h2 : s.isPaused = false)
    (h3 : numRowsToDelete n ≤ s.floor.length) :
    (reduceState s (.GarbageOut n)).floor.length = s.floor.length ∧
    ((reduceState s (.GarbageOut n)).floor.take
        (s.floor.length - numRowsToDelete n) =
      s.floor.drop (numRowsToDelete n)) ∧
    ((reduceState s (.GarbageOut n)).floor.drop
        (s.floor.length - numRowsToDelete n)).length = numRowsToDelete n ∧
    ∀ row ∈ (reduceState s (.GarbageOut n)).floor.drop
        (s.floor.length - numRowsToDelete n),
      row.countP (fun c => c.isNone) = 1 ∧
      row[s.rng.value % Constants.GRID_WIDTH]? = some none := by
  rw [reduceState_not_gated _ h1 h2]
  simp only [GameEvent.consume]
  rw [garbageOut_consume_floor]
  set k := numRowsToDelete n with hk
  set hole := s.rng.value % Constants.GRID_WIDTH with hhole
  have hhole_lt : hole < Constants.GRID_WIDTH :=
    Nat.mod_lt _ (by decide)
  set G := (makeFloor k (some Colour.brown)).map
    (fun row => row.take hole ++ [none] ++ row.drop (hole + 1)) with hG
  have hdlen : (s.floor.drop k).length = s.floor.length - k :=
    List.length_drop k s.floor
  have hGlen : G.length = k := by
    rw [hG, List.length_map, length_makeFloor]
  have hGrow : ∀ row ∈ G,
      row.countP (fun c => c.isNone) = 1 ∧
      row[hole]? = some none := by
    intro row hrow
    rw [hG] at hrow
    obtain ⟨r, hr, hrow⟩ := List.mem_map.mp hrow
    have hrep := row_of_makeFloor hr
    subst hrep
    rw [← hrow]
    have hmin : min hole Constants.GRID_WIDTH = hole :=
      Nat.min_eq_left (Nat.le_of_lt hhole_lt)
    constructor
    · rw [List.take_replicate, List.drop_replicate]
      simp [List.countP_append, List.countP_replicate, List.countP_cons]
    · rw [List.take_replicate, hmin]
      rw [List.getElem?_append_left (by simp [Nat.lt_succ_self])]
      rw [List.getElem?_append_right (by simp)]
      simp
  have h0 : List.drop (s.floor.length - k) (List.drop k s.floor) = [] := by
    apply List.drop_of_length_le
    exact le_of_eq hdlen
  refine ⟨?_, ?_, ?_, ?_⟩
  · rw [List.length_append, hdlen, hGlen]
    omega
  · rw [List.take_append_of_le_length (by omega), List.take_of_length_le (by omega)]
  · rw [List.drop_append_of_le_length (by omega), h0, List.nil_append, hGlen]
  · intro row hrow
    rw [List.drop_append_of_le_length (by omega), h0, List.nil_append] at hrow
    exact hGrow row hrow

/-- C2 witness: `GarbageOut 4` on the initial state — four rows removed and
four appended, each with a single hole. -/
theorem garbageOut_removes_and_appends_witness :
    initialState.gameEnd = false ∧ initialState.isPaused = false ∧
    numRowsToDelete 4 ≤ initialState.floor.length ∧
    ((reduceState initialState (.GarbageOut 4)).floor.length =
        initialState.floor.length ∧
      ((reduceState initialState (.GarbageOut 4)).floor.take
          (initialState.floor.length - numRowsToDelete 4) =
        initialState.floor.drop (numRowsToDelete 4)) ∧
      ((reduceState initialState (.GarbageOut 4)).floor.drop
          (initialState.floor.length - numRowsToDelete 4)).length =
        numRowsToDelete 4 ∧
      ∀ row ∈ (reduceState initialState (.GarbageOut 4)).floor.drop
          (initialState.floor.length - numRowsToDelete 4),
        row.countP (fun c => c.isNone) = 1 ∧
        row[initialState.rng.value % Constants.GRID_WIDTH]? =
          some none) := by
  refine ⟨rfl, rfl, ?_, garbageOut_removes_and_appends initialState 4 rfl rfl ?_⟩ <;>
    · rw [initialState_floor]
      show _ ≤ (makeFloor Constants.GRID_HEIGHT none).length
      rw [length_makeFloor]
      decide

/-! ## Claim C7 -/

/-- A floor with the session's grid dimensions: `GRID_HEIGHT` rows of
`GRID_WIDTH` cells. -/
def FloorWF (f : Floor) : Prop :=
  f.length = Constants.GRID_HEIGHT ∧
  ∀ row ∈ f, row.length = Constants.GRID_WIDTH

theorem FloorWF_makeFloor (c : Cell) : FloorWF (makeFloor Constants.GRID_HEIGHT c) := by
  refine ⟨length_makeFloor _ _, fun row hrow => ?_⟩
  rw [row_of_makeFloor hrow]
  simp

theorem snd_mem_of_mem_enum {l : List α} {x : Nat × α} (h : x ∈ l.enum) :
    x.2 ∈ l :=
  List.snd_mem_of_mem_enumFrom (List.enum_eq_enumFrom ▸ h)

/-- Merging a piece into the floor keeps every dimension. -/
theorem merge_WF {a : Tetromino} {f : Floor} (h : FloorWF f) :
    FloorWF (LockDelay.merge a f) := by
  obtain ⟨hlen, hrows⟩ := h
  constructor
  · unfold LockDelay.merge
    rw [List.length_map, List.enum_eq_enumFrom, List.enumFrom_length]
    exact hlen
  · intro row hrow
    unfold LockDelay.merge at hrow
    obtain ⟨⟨i, r⟩, hmem, hrow⟩ := List.mem_map.mp hrow
    rw [← hrow, List.length_map, List.enum_eq_enumFrom, List.enumFrom_length]
    exact hrows r (snd_mem_of_mem_enum hmem)

/-- Clearing full rows keeps every dimension. -/
theorem clear_WF {f : Floor} (h : FloorWF f) : FloorWF (LockDelay.clear f).2 := by
  obtain ⟨hlen, hrows⟩ := h
  unfold LockDelay.clear
  dsimp only
  constructor
  · rw [List.length_append, length_makeFloor]
    have := List.length_filter_le (fun row => !row.all fun c => c.isSome) f
    omega
  · intro row hrow
    rcases List.mem_append.mp hrow with hm | hm
    · rw [row_of_makeFloor hm]
      simp
    · exact hrows row (List.mem_of_mem_filter hm)

/-- Lock-activation keeps every floor dimension. -/
theorem activate_WF {s : State} (h : FloorWF s.floor) :
    FloorWF (LockDelay.activate s).floor := by
  have hfl : (LockDelay.activate s).floor =
      (LockDelay.clear (LockDelay.merge s.active s.floor)).2 := by
    unfold LockDelay.activate
    dsimp only
    split <;> simp [updateHighlight, rolloverRng, resetLock, resetGravity]
  rw [hfl]
  exact clear_WF (merge_WF h)

/-- Garbage injection keeps every floor dimension, provided the mapped row
count fits the board height. -/
theorem garbage_WF {s : State} {n : Nat} (h : FloorWF s.floor)
    (hn : numRowsToDelete n ≤ Constants.GRID_HEIGHT) :
    FloorWF (GarbageOut.consume n s).floor := by
  obtain ⟨hlen, hrows⟩ := h
  rw [garbageOut_consume_floor]
  constructor
  · rw [List.length_append, List.length_drop, List.length_map, length_makeFloor]
    omega
  · intro row hrow
    rcases List.mem_append.mp hrow with hm | hm
    · exact hrows row (List.mem_of_mem_drop hm)
    · obtain ⟨r, hr, hrow⟩ := List.mem_map.mp hm
      rw [row_of_makeFloor hr] at hrow
      rw [← hrow]
      have hole_lt : s.rng.value % Constants.GRID_WIDTH < Constants.GRID_WIDTH :=
        Nat.mod_lt _ (by decide)
      simp only [List.length_append, List.length_take, List.length_drop,
        List.length_replicate, List.length_cons, List.length_nil]
      omega

/-- Every event application keeps the floor's dimensions (with the garbage
bound). -/
theorem consume_preserves_floor_dims (e : GameEvent) (s : State)
    (hWF : FloorWF s.floor)
    (hg : ∀ n, e = .GarbageOut n → numRowsToDelete n ≤ Constants.GRID_HEIGHT) :
    FloorWF (e.consume s).floor := by
  cases e with
  | Tick =>
      show FloorWF (Tick.consume s).floor
      unfold Tick.consume Move.consume
      dsimp only
      split
      · split <;> simpa [updateHighlight] using hWF
      · simpa using hWF
  | Down b =>
      show FloorWF (Down.consume b s).floor
      unfold Down.consume resetGravity
      split <;> simpa using hWF
  | Move d =>
      show FloorWF (Move.consume d s).floor
      unfold Move.consume
      split <;> simpa [updateHighlight] using hWF
  | Rotate d =>
      show FloorWF (Rotate.consume d s).floor
      unfold Rotate.consume
      simpa [updateHighlight] using hWF
  | LockDelay =>
      show FloorWF (LockDelay.consume s).floor
      unfold LockDelay.consume
      dsimp only
      by_cases hc : (s.active.moveBy ⟨0, 1⟩).validPos s.floor = true
      · simpa [hc] using hWF
      · simp only [Bool.not_eq_true] at hc
        simp only [hc, Bool.false_eq_true, if_false, Bool.not_false, Bool.and_true]
        split
        · exact activate_WF hWF
        · simpa using hWF
  | Hold =>
      show FloorWF (Hold.consume s).floor
      unfold Hold.consume
      dsimp only
      split
      · exact hWF
      · split <;>
          simpa [updateHighlight, rolloverRng, resetLock, resetGravity] using hWF
  | Pause b =>
      show FloorWF (Pause.consume b s).floor
      unfold Pause.consume
      simpa using hWF
  | Connect b =>
      show FloorWF (Connect.consume b s).floor
      unfold Connect.consume
      simpa using hWF
  | Drop =>
      show FloorWF (Drop.consume s).floor
      unfold Drop.consume
      exact activate_WF hWF
  | GarbageOut n =>
      exact garbage_WF hWF (hg n rfl)
  | Restart =>
      show FloorWF (Restart.consume s).floor
      unfold Restart.consume
      dsimp only
      simp only [updateHighlight, rolloverRng, resetLock, resetGravity]
      exact FloorWF_makeFloor none

/-- C7 counterexample: the claim quantifies over every state and event,
but `GarbageOut 25` on the standard 20-row board changes the row count
from 20 to 25 — the rows removed from the top (at most 20) cannot match
the 25 rows appended. -/
theorem floor_dims_change_at_25 :
    initialState.floor.length = 20 ∧
    (reduceState initialState (.GarbageOut 25)).floor.length = 25 := by
  constructor
  · rw [initialState_floor]
    exact length_makeFloor _ _
  · rw [reduceState_not_gated _ rfl rfl]
    show (GarbageOut.consume 25 initialState).floor.length = 25
    rw [garbageOut_consume_floor]
    simp [initialState_floor, length_makeFloor, makeEmptyFloor]
    decide

/-- C7 (amended): for every state whose board has the session's
`GRID_HEIGHT × GRID_WIDTH` dimensions and every event — where a
`GarbageOut n` event is constrained to a mapped row count of at most the
board height — the board after `reduceState` has exactly the same number
of rows and columns: `clearFullRows` prepends exactly as many fresh rows
as it removed, and `GarbageOut` removes exactly as many rows as it
appends. -/
theorem reduceState_preserves_floor_dims (s : State) (e : GameEvent)
    (hWF : FloorWF s.floor)
    (hg : ∀ n, e = .GarbageOut n → numRowsToDelete n ≤ Constants.GRID_HEIGHT) :
    FloorWF (reduceState s e).floor := by
  unfold reduceState
  split
  · split
    · exact consume_preserves_floor_dims e s hWF hg
    · exact hWF
  · exact consume_preserves_floor_dims e s hWF hg

/-- C7 witness: the dimension invariant holds after a concrete `Tick` (and
after a bounded `GarbageOut 4`) on the initial state. -/
theorem reduceState_preserves_floor_dims_witness :
    FloorWF initialState.floor ∧
    FloorWF (reduceState initialState .Tick).floor ∧
    FloorWF (reduceState initialState (.GarbageOut 4)).floor := by
  have hWF : FloorWF initialState.floor := by
    rw [initialState_floor]
    exact FloorWF_makeFloor none
  refine ⟨hWF, ?_, ?_⟩
  · exact reduceState_preserves_floor_dims initialState .Tick hWF
      (fun n h => nomatch h)
  · exact reduceState_preserves_floor_dims initialState (.GarbageOut 4) hWF
      (fun n h => by cases h; decide)

/-! ## Claim C6 -/

/-- C6: `drop` (hard drop) terminates — it is definable by well-founded
recursion on the distance between the piece and the floor's bottom — and
its result keeps the piece's x coordinate, has a row index at least the
original one, and cannot be translated one more row down while remaining
valid. -/
theorem drop_deepest (t : Tetromino) (f : Floor) :
    (t.drop f).pos.x = t.pos.x ∧
    t.pos.y ≤ (t.drop f).pos.y ∧
    ((t.drop f).moveBy ⟨0, 1⟩).validPos f = false := by
  induction t, f using Tetromino.drop.induct with
  | case1 t f h =>
      rw [Tetromino.drop, dif_pos h]
      exact ⟨rfl, le_refl _, h⟩
  | case2 t f h ih =>
      rw [Tetromino.drop, dif_neg h]
      refine ⟨?_, ?_, ih.2.2⟩
      · rw [ih.1]
        simp [Tetromino.moveBy, Pos.add]
      · have h1 : t.pos.y ≤ (t.moveBy ⟨0, 1⟩).pos.y := by
          simp [Tetromino.moveBy, Pos.add]
        exact le_trans h1 ih.2.1

/-! ## Claim C4: geometry of four rotations -/

/-- A rectangular `h × w` matrix: `h` rows, each of `w` cells (the data
model requires shapes to be such grids). -/
def Rect (h w : Nat) (m : List (List α)) : Prop :=
  m.length = h ∧ ∀ row ∈ m, row.length = w

theorem getD_of_lt (l : List α) (d : α) {i : Nat} (h : i < l.length) :
    l.getD i d = l.get ⟨i, h⟩ := by
  rw [List.getD_eq_getElem?_getD, List.getElem?_eq_getElem h]
  rfl

theorem rotateMatrixRight_eq [Inhabited α] (m : List (List α)) :
    rotateMatrixRight m =
      (List.range (m.headD []).length).map fun i =>
        m.reverse.map fun row => row.getD i default := by
  simp only [rotateMatrixRight, Tetromino.pureReverse_eq_reverse]

theorem head_length_of_rect {h w : Nat} {m : List (List α)}
    (hm : Rect h w m) (hh : 0 < h) : (m.headD []).length = w := by
  obtain ⟨hlen, hrows⟩ := hm
  cases m with
  | nil => simp at hlen; omega
  | cons r rest => exact hrows r (List.mem_cons_self r rest)

theorem rect_rotR [Inhabited α] {h w : Nat} {m : List (List α)}
    (hm : Rect h w m) (hh : 0 < h) : Rect w h (rotateMatrixRight m) := by
  rw [rotateMatrixRight_eq, head_length_of_rect hm hh]
  constructor
  · simp
  · intro row hrow
    obtain ⟨i, _, hrow⟩ := List.mem_map.mp hrow
    rw [← hrow]
    simp [hm.1]

/-- The row of a right rotation at an index below the width. -/
theorem rotR_row [Inhabited α] {h w : Nat} {m : List (List α)}
    (hm : Rect h w m) (hh : 0 < h) {i : Nat} (hi : i < w) :
    (rotateMatrixRight m).getD i [] =
      m.reverse.map fun row => row.getD i default := by
  rw [rotateMatrixRight_eq, head_length_of_rect hm hh]
  rw [getD_of_lt _ [] (by simpa using hi)]
  rw [List.get_eq_getElem, List.getElem_map, List.getElem_range]

/-- The entries of a right rotation: row `i`, column `j` of the rotation
is row `h-1-j`, column `i` of the original. -/
theorem rotR_entry [Inhabited α] {h w : Nat} {m : List (List α)}
    (hm : Rect h w m) (hh : 0 < h) {i j : Nat} (hi : i < w) (hj : j < h) :
    ((rotateMatrixRight m).getD i []).getD j default =
      (m.getD (h - 1 - j) []).getD i default := by
  obtain ⟨hlen, hrows⟩ := hm
  subst hlen
  rw [rotR_row ⟨rfl, hrows⟩ hh hi]
  have hjr : j < (m.reverse.map fun row => row.getD i default).length := by
    simpa using hj
  rw [getD_of_lt _ _ hjr, List.get_eq_getElem, List.getElem_map,
    List.getElem_reverse]
  rw [getD_of_lt m [] (show m.length - 1 - j < m.length by omega),
    List.get_eq_getElem]

/-- Extensionality for rectangular matrices through `getD` entries. -/
theorem rect_ext [Inhabited α] {h w : Nat} {m1 m2 : List (List α)}
    (h1 : Rect h w m1) (h2 : Rect h w m2)
    (he : ∀ i j, i < h → j < w →
      (m1.getD i []).getD j default = (m2.getD i []).getD j default) :
    m1 = m2 := by
  obtain ⟨hl1, hr1⟩ := h1
  obtain ⟨hl2, hr2⟩ := h2
  apply List.ext_getElem (by rw [hl1, hl2])
  intro i hi1 hi2
  have hrow1 : m1[i].length = w := hr1 _ (List.getElem_mem hi1)
  have hrow2 : m2[i].length = w := hr2 _ (List.getElem_mem hi2)
  apply List.ext_getElem (by rw [hrow1, hrow2])
  intro j hj1 hj2
  have hcell := he i j (by omega) (by omega)
  rw [getD_of_lt m1 [] hi1, List.get_eq_getElem,
    getD_of_lt _ _ hj1, List.get_eq_getElem] at hcell
  rw [getD_of_lt m2 [] hi2, List.get_eq_getElem,
    getD_of_lt _ _ hj2, List.get_eq_getElem] at hcell
  exact hcell

/-- Four right rotations of a (nonempty) rectangular matrix give back the
matrix. -/
theorem rotR_four [Inhabited α] {h w : Nat} {m : List (List α)}
    (hm : Rect h w m) (hh : 0 < h) (hw : 0 < w) :
    rotateMatrixRight (rotateMatrixRight (rotateMatrixRight
      (rotateMatrixRight m))) = m := by
  have r1 := rect_rotR hm hh
  have r2 := rect_rotR r1 hw
  have r3 := rect_rotR r2 hh
  have r4 := rect_rotR r3 hw
  apply rect_ext r4 hm
  intro i j hi hj
  rw [rotR_entry r3 hw hi hj]
  rw [rotR_entry r2 hh (by omega) (by omega)]
  rw [rotR_entry r1 hw (by omega) (by omega)]
  have e1 : w - 1 - (w - 1 - j) = j := by omega
  rw [e1]
  rw [rotR_entry hm hh (by omega) (by omega)]
  have e2 : h - 1 - (h - 1 - i) = i := by omega
  rw [e2]

/-! ## Claim C4: wall-kick bookkeeping -/

theorem chain_zero (f : α → α) (e : α) : chain f e 0 = e := rfl

theorem chain_succ (f : α → α) (e : α) (n : Nat) :
    chain f e (n + 1) = f (chain f e n) := by
  unfold chain
  rw [List.range_succ, List.foldl_append]
  rfl

theorem rotateMatrixLeft_eq [Inhabited α] (m : List (List α)) :
    rotateMatrixLeft m =
      rotateMatrixRight (rotateMatrixRight (rotateMatrixRight m)) := by
  unfold rotateMatrixLeft
  rw [chain_succ, chain_succ, chain_succ, chain_zero]

/-- Similarity is the four-fold disjunction of rotation equalities. -/
theorem simillarMatrix_iff [Inhabited α] [DecidableEq α]
    (m1 m2 : List (List α)) :
    simillarMatrix m1 m2 = true ↔
      (m1 = m2 ∨ rotateMatrixRight m1 = m2 ∨
        rotateMatrixRight (rotateMatrixRight m1) = m2 ∨
        rotateMatrixRight (rotateMatrixRight (rotateMatrixRight m1)) = m2) := by
  unfold simillarMatrix
  rw [show List.range 4 = [0, 1, 2, 3] from rfl]
  simp [chain_succ, chain_zero]

/-- The set of four rotations — hence the similarity test — is invariant
under rotating the tested shape, whenever four rotations close up. -/
theorem simillarMatrix_rotR [Inhabited α] [DecidableEq α]
    {m1 : List (List α)}
    (h4 : rotateMatrixRight (rotateMatrixRight (rotateMatrixRight
      (rotateMatrixRight m1))) = m1) (m2 : List (List α)) :
    simillarMatrix (rotateMatrixRight m1) m2 = simillarMatrix m1 m2 := by
  apply Bool.eq_iff_iff.mpr
  rw [simillarMatrix_iff, simillarMatrix_iff]
  constructor
  · rintro (h | h | h | h)
    · exact Or.inr (Or.inl h)
    · exact Or.inr (Or.inr (Or.inl h))
    · exact Or.inr (Or.inr (Or.inr h))
    · rw [h4] at h
      exact Or.inl h
  · rintro (h | h | h | h)
    · refine Or.inr (Or.inr (Or.inr ?_))
      rw [h4]
      exact h
    · exact Or.inl h
    · exact Or.inr (Or.inl h)
    · exact Or.inr (Or.inr (Or.inl h))

/-- The wall-kick table choice is stable across a rotation. -/
theorem offsetsFor_rotR {m : Shape}
    (h4 : rotateMatrixRight (rotateMatrixRight (rotateMatrixRight
      (rotateMatrixRight m))) = m) :
    WallKick.offsetsFor (rotateMatrixRight m) = WallKick.offsetsFor m := by
  unfold WallKick.offsetsFor
  dsimp only
  rw [simillarMatrix_rotR h4, simillarMatrix_rotR h4]

theorem rightState_bounds {r : Int} (h0 : 0 ≤ r) (h4 : r < 4) :
    0 ≤ (r + 1).tmod 4 ∧ (r + 1).tmod 4 < 4 := by
  interval_cases r <;> exact ⟨by decide, by decide⟩

theorem leftState_bounds {r : Int} (h0 : 0 ≤ r) (h4 : r < 4) :
    0 ≤ Tetromino.leftNextState r ∧ Tetromino.leftNextState r < 4 := by
  interval_cases r <;> exact ⟨by decide, by decide⟩

theorem rightState_cycle {r : Int} (h0 : 0 ≤ r) (h4 : r < 4) :
    ((((r + 1).tmod 4 + 1).tmod 4 + 1).tmod 4 + 1).tmod 4 = r := by
  interval_cases r <;> decide

theorem leftState_cycle {r : Int} (h0 : 0 ≤ r) (h4 : r < 4) :
    Tetromino.leftNextState (Tetromino.leftNextState (Tetromino.leftNextState (Tetromino.leftNextState r))) = r := by
  interval_cases r <;> decide

/-- Every row of every wall-kick table at a rotation state below 4 is
nonempty. -/
theorem offsetsFor_getD_ne_nil (s : Shape) {i : Nat} (hi : i < 4) :
    (WallKick.offsetsFor s).getD i [] ≠ [] := by
  unfold WallKick.offsetsFor
  dsimp only
  split
  · interval_cases i <;> decide
  · split
    · interval_cases i <;> decide
    · interval_cases i <;> decide

/-- The first wall-kick candidate is the difference of the two table
rows' first offsets. -/
theorem getData_head {t to' : Tetromino}
    (h1 : 0 ≤ t.rotationState) (h2 : t.rotationState < 4)
    (h3 : 0 ≤ to'.rotationState) (h4 : to'.rotationState < 4) :
    WallKick.getData t to' ≠ [] ∧
    (WallKick.getData t to').headD ⟨0, 0⟩ =
      (((WallKick.offsetsFor t.shape).getD t.rotationState.toNat
          []).headD ⟨0, 0⟩).subtract
        (((WallKick.offsetsFor t.shape).getD to'.rotationState.toNat
          []).headD ⟨0, 0⟩) := by
  have hi1 : t.rotationState.toNat < 4 := by omega
  have hi2 : to'.rotationState.toNat < 4 := by omega
  unfold WallKick.getData
  dsimp only
  rcases hA : (WallKick.offsetsFor t.shape).getD t.rotationState.toNat []
    with _ | ⟨a, A⟩
  · exact absurd hA (offsetsFor_getD_ne_nil _ hi1)
  · rcases hB : (WallKick.offsetsFor t.shape).getD to'.rotationState.toNat []
      with _ | ⟨b, B⟩
    · exact absurd hB (offsetsFor_getD_ne_nil _ hi2)
    · exact ⟨by simp, rfl⟩

/-- The first wall-kick candidate offset of a right rotation. -/
def kick0R (t : Tetromino) : Pos :=
  (WallKick.getData t (Tetromino.tentativeRight t)).headD ⟨0, 0⟩

/-- The first wall-kick candidate offset of a left rotation. -/
def kick0L (t : Tetromino) : Pos :=
  (WallKick.getData t (Tetromino.tentativeLeft t)).headD ⟨0, 0⟩

/-- The first right-rotation wall-kick candidate is valid on `f`. -/
def candOkRight (t : Tetromino) (f : Floor) : Bool :=
  ((Tetromino.tentativeRight t).moveBy (kick0R t)).validPos f

/-- The first left-rotation wall-kick candidate is valid on `f`. -/
def candOkLeft (t : Tetromino) (f : Floor) : Bool :=
  ((Tetromino.tentativeLeft t).moveBy (kick0L t)).validPos f

/-- When the first kick candidate is valid, `rotateRight` returns exactly
the tentative rotation translated by it. -/
theorem rotateRight_eq_of_candOk {t : Tetromino} {f : Floor}
    (h1 : 0 ≤ t.rotationState) (h2 : t.rotationState < 4)
    (hv : candOkRight t f = true) :
    t.rotateRight f = (Tetromino.tentativeRight t).moveBy (kick0R t) := by
  have hb := rightState_bounds h1 h2
  have hd := @getData_head t (Tetromino.tentativeRight t) h1 h2 hb.1 hb.2
  unfold candOkRight at hv
  unfold Tetromino.rotateRight Tetromino.«__rotate»
  dsimp only
  rcases hc : WallKick.getData t (Tetromino.tentativeRight t) with _ | ⟨k, ks⟩
  · exact absurd hc hd.1
  · have hk : kick0R t = k := by
      unfold kick0R
      rw [hc]
      rfl
    rw [hk] at hv
    simp only [List.map_cons, List.filter_cons, hv, if_true]
    simp [hk]

/-- When the first kick candidate is valid, `rotateLeft` returns exactly
the tentative rotation translated by it. -/
theorem rotateLeft_eq_of_candOk {t : Tetromino} {f : Floor}
    (h1 : 0 ≤ t.rotationState) (h2 : t.rotationState < 4)
    (hv : candOkLeft t f = true) :
    t.rotateLeft f = (Tetromino.tentativeLeft t).moveBy (kick0L t) := by
  have hb := leftState_bounds h1 h2
  have hb' : 0 ≤ (Tetromino.tentativeLeft t).rotationState ∧
      (Tetromino.tentativeLeft t).rotationState < 4 := hb
  have hd := @getData_head t (Tetromino.tentativeLeft t) h1 h2 hb'.1 hb'.2
  unfold candOkLeft at hv
  unfold Tetromino.rotateLeft Tetromino.«__rotate»
  dsimp only
  rcases hc : WallKick.getData t (Tetromino.tentativeLeft t) with _ | ⟨k, ks⟩
  · exact absurd hc hd.1
  · have hk : kick0L t = k := by
      unfold kick0L
      rw [hc]
      rfl
    rw [hk] at hv
    simp only [List.map_cons, List.filter_cons, hv, if_true]
    simp [hk]

/-! ## Claim C4: the four-rotation cycle -/

theorem Tetromino.moveBy_shape (t : Tetromino) (k : Pos) :
    (t.moveBy k).shape = t.shape := rfl

theorem Tetromino.moveBy_pos (t : Tetromino) (k : Pos) :
    (t.moveBy k).pos = t.pos.add k := rfl

theorem Tetromino.moveBy_rotationState (t : Tetromino) (k : Pos) :
    (t.moveBy k).rotationState = t.rotationState := rfl

theorem Tetromino.tentativeRight_shape (t : Tetromino) :
    (Tetromino.tentativeRight t).shape = rotateMatrixRight t.shape := rfl

theorem Tetromino.tentativeRight_pos (t : Tetromino) :
    (Tetromino.tentativeRight t).pos = t.pos := rfl

theorem Tetromino.tentativeRight_rotationState (t : Tetromino) :
    (Tetromino.tentativeRight t).rotationState =
      (t.rotationState + 1).tmod 4 := rfl

theorem Tetromino.tentativeLeft_shape (t : Tetromino) :
    (Tetromino.tentativeLeft t).shape = rotateMatrixLeft t.shape := rfl

theorem Tetromino.tentativeLeft_pos (t : Tetromino) :
    (Tetromino.tentativeLeft t).pos = t.pos := rfl

theorem Tetromino.tentativeLeft_rotationState (t : Tetromino) :
    (Tetromino.tentativeLeft t).rotationState =
      Tetromino.leftNextState t.rotationState := rfl

/-- Translating by the four telescoping kick differences cancels out. -/
theorem pos_telescope (p a0 a1 a2 a3 : Pos) :
    (((p.add (a0.subtract a1)).add (a1.subtract a2)).add
      (a2.subtract a3)).add (a3.subtract a0) = p := by
  cases p
  cases a0
  cases a1
  cases a2
  cases a3
  simp only [Pos.add, Pos.subtract, Pos.mk.injEq]
  constructor <;> ring

/-- Four right rotations under first-kick validity: the shape and the
position return to the original. -/
theorem rotateRight_four {t : Tetromino} {f : Floor} {h w : Nat}
    (hrect : Rect h w t.shape) (hh : 0 < h) (hw : 0 < w)
    (hr0 : 0 ≤ t.rotationState) (hr4 : t.rotationState < 4)
    (H0 : candOkRight t f = true)
    (H1 : candOkRight (t.rotateRight f) f = true)
    (H2 : candOkRight ((t.rotateRight f).rotateRight f) f = true)
    (H3 : candOkRight
      (((t.rotateRight f).rotateRight f).rotateRight f) f = true) :
    ((((t.rotateRight f).rotateRight f).rotateRight f).rotateRight f).shape
        = t.shape ∧
    ((((t.rotateRight f).rotateRight f).rotateRight f).rotateRight f).pos
        = t.pos := by
  have h4S := rotR_four hrect hh hw
  have e1 := rotateRight_eq_of_candOk hr0 hr4 H0
  have hst1 : (t.rotateRight f).rotationState = (t.rotationState + 1).tmod 4 := by
    rw [e1, Tetromino.moveBy_rotationState, Tetromino.tentativeRight_rotationState]
  have hb1 := rightState_bounds hr0 hr4
  have hr0a : 0 ≤ (t.rotateRight f).rotationState := by rw [hst1]; exact hb1.1
  have hr4a : (t.rotateRight f).rotationState < 4 := by rw [hst1]; exact hb1.2
  have e2 := rotateRight_eq_of_candOk hr0a hr4a H1
  have hst2 : ((t.rotateRight f).rotateRight f).rotationState =
      ((t.rotationState + 1).tmod 4 + 1).tmod 4 := by
    rw [e2, Tetromino.moveBy_rotationState, Tetromino.tentativeRight_rotationState, hst1]
  have hb2 := rightState_bounds hr0a hr4a
  have hr0b : 0 ≤ ((t.rotateRight f).rotateRight f).rotationState := by
    rw [hst2, ← hst1]
    exact hb2.1
  have hr4b : ((t.rotateRight f).rotateRight f).rotationState < 4 := by
    rw [hst2, ← hst1]
    exact hb2.2
  have e3 := rotateRight_eq_of_candOk hr0b hr4b H2
  have hst3 : (((t.rotateRight f).rotateRight f).rotateRight f).rotationState =
      (((t.rotationState + 1).tmod 4 + 1).tmod 4 + 1).tmod 4 := by
    rw [e3, Tetromino.moveBy_rotationState, Tetromino.tentativeRight_rotationState, hst2]
  have hb3 := rightState_bounds hr0b hr4b
  have hr0c : 0 ≤ (((t.rotateRight f).rotateRight f).rotateRight f).rotationState := by
    rw [hst3, ← hst2]
    exact hb3.1
  have hr4c : (((t.rotateRight f).rotateRight f).rotateRight f).rotationState < 4 := by
    rw [hst3, ← hst2]
    exact hb3.2
  have e4 := rotateRight_eq_of_candOk hr0c hr4c H3
  have hsh1 : (t.rotateRight f).shape = rotateMatrixRight t.shape := by
    rw [e1, Tetromino.moveBy_shape, Tetromino.tentativeRight_shape]
  have hsh2 : ((t.rotateRight f).rotateRight f).shape =
      rotateMatrixRight (rotateMatrixRight t.shape) := by
    rw [e2, Tetromino.moveBy_shape, Tetromino.tentativeRight_shape, hsh1]
  have hsh3 : (((t.rotateRight f).rotateRight f).rotateRight f).shape =
      rotateMatrixRight (rotateMatrixRight (rotateMatrixRight t.shape)) := by
    rw [e3, Tetromino.moveBy_shape, Tetromino.tentativeRight_shape, hsh2]
  have h41 : rotateMatrixRight (rotateMatrixRight (rotateMatrixRight
      (rotateMatrixRight (rotateMatrixRight t.shape)))) =
      rotateMatrixRight t.shape := by rw [h4S]
  have h42 : rotateMatrixRight (rotateMatrixRight (rotateMatrixRight
      (rotateMatrixRight (rotateMatrixRight (rotateMatrixRight t.shape))))) =
      rotateMatrixRight (rotateMatrixRight t.shape) := by rw [h4S]
  have tab1 : WallKick.offsetsFor (rotateMatrixRight t.shape) =
      WallKick.offsetsFor t.shape := offsetsFor_rotR h4S
  have tab2 : WallKick.offsetsFor
      (rotateMatrixRight (rotateMatrixRight t.shape)) =
      WallKick.offsetsFor t.shape := (offsetsFor_rotR h41).trans tab1
  have tab3 : WallKick.offsetsFor
      (rotateMatrixRight (rotateMatrixRight (rotateMatrixRight t.shape))) =
      WallKick.offsetsFor t.shape := (offsetsFor_rotR h42).trans tab2
  have hk1 : kick0R t =
      (((WallKick.offsetsFor t.shape).getD t.rotationState.toNat
          []).headD ⟨0, 0⟩).subtract
        (((WallKick.offsetsFor t.shape).getD
          ((t.rotationState + 1).tmod 4).toNat []).headD ⟨0, 0⟩) :=
    (getData_head hr0 hr4 hb1.1 hb1.2).2
  have hk2 : kick0R (t.rotateRight f) =
      (((WallKick.offsetsFor t.shape).getD
          ((t.rotationState + 1).tmod 4).toNat []).headD ⟨0, 0⟩).subtract
        (((WallKick.offsetsFor t.shape).getD
          (((t.rotationState + 1).tmod 4 + 1).tmod 4).toNat []).headD ⟨0, 0⟩) := by
    have hmain := (@getData_head (t.rotateRight f)
      (Tetromino.tentativeRight (t.rotateRight f)) hr0a hr4a
      (by rw [Tetromino.tentativeRight_rotationState]
          exact (rightState_bounds hr0a hr4a).1)
      (by rw [Tetromino.tentativeRight_rotationState]
          exact (rightState_bounds hr0a hr4a).2)).2
    rw [hsh1, tab1, hst1, Tetromino.tentativeRight_rotationState, hst1] at hmain
    exact hmain
  have hk3 : kick0R ((t.rotateRight f).rotateRight f) =
      (((WallKick.offsetsFor t.shape).getD
          (((t.rotationState + 1).tmod 4 + 1).tmod 4).toNat []).headD ⟨0, 0⟩).subtract
        (((WallKick.offsetsFor t.shape).getD
          ((((t.rotationState + 1).tmod 4 + 1).tmod 4 + 1).tmod 4).toNat
          []).headD ⟨0, 0⟩) := by
    have hmain := (@getData_head ((t.rotateRight f).rotateRight f)
      (Tetromino.tentativeRight ((t.rotateRight f).rotateRight f))
      hr0b hr4b
      (by rw [Tetromino.tentativeRight_rotationState]
          exact (rightState_bounds hr0b hr4b).1)
      (by rw [Tetromino.tentativeRight_rotationState]
          exact (rightState_bounds hr0b hr4b).2)).2
    rw [hsh2, tab2, hst2, Tetromino.tentativeRight_rotationState, hst2] at hmain
    exact hmain
  have hk4 : kick0R (((t.rotateRight f).rotateRight f).rotateRight f) =
      (((WallKick.offsetsFor t.shape).getD
          ((((t.rotationState + 1).tmod 4 + 1).tmod 4 + 1).tmod 4).toNat
          []).headD ⟨0, 0⟩).subtract
        (((WallKick.offsetsFor t.shape).getD t.rotationState.toNat
          []).headD ⟨0, 0⟩) := by
    have hmain := (@getData_head
      (((t.rotateRight f).rotateRight f).rotateRight f)
      (Tetromino.tentativeRight
        (((t.rotateRight f).rotateRight f).rotateRight f))
      hr0c hr4c
      (by rw [Tetromino.tentativeRight_rotationState]
          exact (rightState_bounds hr0c hr4c).1)
      (by rw [Tetromino.tentativeRight_rotationState]
          exact (rightState_bounds hr0c hr4c).2)).2
    rw [hsh3, tab3, hst3, Tetromino.tentativeRight_rotationState, hst3,
      rightState_cycle hr0 hr4] at hmain
    exact hmain
  have p1 : (t.rotateRight f).pos = t.pos.add (kick0R t) := by
    rw [e1, Tetromino.moveBy_pos, Tetromino.tentativeRight_pos]
  have p2 : ((t.rotateRight f).rotateRight f).pos =
      (t.rotateRight f).pos.add (kick0R (t.rotateRight f)) := by
    rw [e2, Tetromino.moveBy_pos, Tetromino.tentativeRight_pos]
  have p3 : (((t.rotateRight f).rotateRight f).rotateRight f).pos =
      ((t.rotateRight f).rotateRight f).pos.add
        (kick0R ((t.rotateRight f).rotateRight f)) := by
    rw [e3, Tetromino.moveBy_pos, Tetromino.tentativeRight_pos]
  constructor
  · rw [e4, Tetromino.moveBy_shape, Tetromino.tentativeRight_shape, hsh3]
    exact h4S
  · rw [e4, Tetromino.moveBy_pos, Tetromino.tentativeRight_pos]
    rw [p3, p2, p1]
    rw [hk1, hk2, hk3, hk4]
    exact pos_telescope _ _ _ _ _

/-- Four left rotations under first-kick validity: the shape and the
position return to the original. -/
theorem rotateLeft_four {t : Tetromino} {f : Floor} {h w : Nat}
    (hrect : Rect h w t.shape) (hh : 0 < h) (hw : 0 < w)
    (hr0 : 0 ≤ t.rotationState) (hr4 : t.rotationState < 4)
    (H0 : candOkLeft t f = true)
    (H1 : candOkLeft (t.rotateLeft f) f = true)
    (H2 : candOkLeft ((t.rotateLeft f).rotateLeft f) f = true)
    (H3 : candOkLeft
      (((t.rotateLeft f).rotateLeft f).rotateLeft f) f = true) :
    ((((t.rotateLeft f).rotateLeft f).rotateLeft f).rotateLeft f).shape
        = t.shape ∧
    ((((t.rotateLeft f).rotateLeft f).rotateLeft f).rotateLeft f).pos
        = t.pos := by
  have h4S := rotR_four hrect hh hw
  have e1 := rotateLeft_eq_of_candOk hr0 hr4 H0
  have hst1 : (t.rotateLeft f).rotationState =
      Tetromino.leftNextState t.rotationState := by
    rw [e1, Tetromino.moveBy_rotationState, Tetromino.tentativeLeft_rotationState]
  have hb1 := leftState_bounds hr0 hr4
  have hr0a : 0 ≤ (t.rotateLeft f).rotationState := by rw [hst1]; exact hb1.1
  have hr4a : (t.rotateLeft f).rotationState < 4 := by rw [hst1]; exact hb1.2
  have e2 := rotateLeft_eq_of_candOk hr0a hr4a H1
  have hst2 : ((t.rotateLeft f).rotateLeft f).rotationState =
      Tetromino.leftNextState (Tetromino.leftNextState t.rotationState) := by
    rw [e2, Tetromino.moveBy_rotationState, Tetromino.tentativeLeft_rotationState, hst1]
  have hb2 := leftState_bounds hr0a hr4a
  have hr0b : 0 ≤ ((t.rotateLeft f).rotateLeft f).rotationState := by
    rw [hst2, ← hst1]
    exact hb2.1
  have hr4b : ((t.rotateLeft f).rotateLeft f).rotationState < 4 := by
    rw [hst2, ← hst1]
    exact hb2.2
  have e3 := rotateLeft_eq_of_candOk hr0b hr4b H2
  have hst3 : (((t.rotateLeft f).rotateLeft f).rotateLeft f).rotationState =
      Tetromino.leftNextState (Tetromino.leftNextState
        (Tetromino.leftNextState t.rotationState)) := by
    rw [e3, Tetromino.moveBy_rotationState, Tetromino.tentativeLeft_rotationState, hst2]
  have hb3 := leftState_bounds hr0b hr4b
  have hr0c : 0 ≤ (((t.rotateLeft f).rotateLeft f).rotateLeft f).rotationState := by
    rw [hst3, ← hst2]
    exact hb3.1
  have hr4c : (((t.rotateLeft f).rotateLeft f).rotateLeft f).rotationState < 4 := by
    rw [hst3, ← hst2]
    exact hb3.2
  have e4 := rotateLeft_eq_of_candOk hr0c hr4c H3
  have hsh1 : (t.rotateLeft f).shape =
      rotateMatrixRight (rotateMatrixRight (rotateMatrixRight t.shape)) := by
    rw [e1, Tetromino.moveBy_shape, Tetromino.tentativeLeft_shape, rotateMatrixLeft_eq]
  have hsh2 : ((t.rotateLeft f).rotateLeft f).shape =
      rotateMatrixRight (rotateMatrixRight t.shape) := by
    rw [e2, Tetromino.moveBy_shape, Tetromino.tentativeLeft_shape, hsh1,
      rotateMatrixLeft_eq, h4S]
  have hsh3 : (((t.rotateLeft f).rotateLeft f).rotateLeft f).shape =
      rotateMatrixRight t.shape := by
    rw [e3, Tetromino.moveBy_shape, Tetromino.tentativeLeft_shape, hsh2,
      rotateMatrixLeft_eq, h4S]
  have h41 : rotateMatrixRight (rotateMatrixRight (rotateMatrixRight
      (rotateMatrixRight (rotateMatrixRight t.shape)))) =
      rotateMatrixRight t.shape := by rw [h4S]
  have h42 : rotateMatrixRight (rotateMatrixRight (rotateMatrixRight
      (rotateMatrixRight (rotateMatrixRight (rotateMatrixRight t.shape))))) =
      rotateMatrixRight (rotateMatrixRight t.shape) := by rw [h4S]
  have tab1 : WallKick.offsetsFor (rotateMatrixRight t.shape) =
      WallKick.offsetsFor t.shape := offsetsFor_rotR h4S
  have tab2 : WallKick.offsetsFor
      (rotateMatrixRight (rotateMatrixRight t.shape)) =
      WallKick.offsetsFor t.shape := (offsetsFor_rotR h41).trans tab1
  have tab3 : WallKick.offsetsFor
      (rotateMatrixRight (rotateMatrixRight (rotateMatrixRight t.shape))) =
      WallKick.offsetsFor t.shape := (offsetsFor_rotR h42).trans tab2
  have hk1 : kick0L t =
      (((WallKick.offsetsFor t.shape).getD t.rotationState.toNat
          []).headD ⟨0, 0⟩).subtract
        (((WallKick.offsetsFor t.shape).getD
          (Tetromino.leftNextState t.rotationState).toNat []).headD ⟨0, 0⟩) :=
    (getData_head hr0 hr4 hb1.1 hb1.2).2
  have hk2 : kick0L (t.rotateLeft f) =
      (((WallKick.offsetsFor t.shape).getD
          (Tetromino.leftNextState t.rotationState).toNat []).headD ⟨0, 0⟩).subtract
        (((WallKick.offsetsFor t.shape).getD
          (Tetromino.leftNextState (Tetromino.leftNextState
            t.rotationState)).toNat []).headD ⟨0, 0⟩) := by
    have hmain := (@getData_head (t.rotateLeft f)
      (Tetromino.tentativeLeft (t.rotateLeft f)) hr0a hr4a
      (by rw [Tetromino.tentativeLeft_rotationState]
          exact (leftState_bounds hr0a hr4a).1)
      (by rw [Tetromino.tentativeLeft_rotationState]
          exact (leftState_bounds hr0a hr4a).2)).2
    rw [hsh1, tab3, hst1, Tetromino.tentativeLeft_rotationState, hst1] at hmain
    exact hmain
  have hk3 : kick0L ((t.rotateLeft f).rotateLeft f) =
      (((WallKick.offsetsFor t.shape).getD
          (Tetromino.leftNextState (Tetromino.leftNextState
            t.rotationState)).toNat []).headD ⟨0, 0⟩).subtract
        (((WallKick.offsetsFor t.shape).getD
          (Tetromino.leftNextState (Tetromino.leftNextState
            (Tetromino.leftNextState t.rotationState))).toNat
          []).headD ⟨0, 0⟩) := by
    have hmain := (@getData_head ((t.rotateLeft f).rotateLeft f)
      (Tetromino.tentativeLeft ((t.rotateLeft f).rotateLeft f))
      hr0b hr4b
      (by rw [Tetromino.tentativeLeft_rotationState]
          exact (leftState_bounds hr0b hr4b).1)
      (by rw [Tetromino.tentativeLeft_rotationState]
          exact (leftState_bounds hr0b hr4b).2)).2
    rw [hsh2, tab2, hst2, Tetromino.tentativeLeft_rotationState, hst2] at hmain
    exact hmain
  have hk4 : kick0L (((t.rotateLeft f).rotateLeft f).rotateLeft f) =
      (((WallKick.offsetsFor t.shape).getD
          (Tetromino.leftNextState (Tetromino.leftNextState
            (Tetromino.leftNextState t.rotationState))).toNat
          []).headD ⟨0, 0⟩).subtract
        (((WallKick.offsetsFor t.shape).getD t.rotationState.toNat
          []).headD ⟨0, 0⟩) := by
    have hmain := (@getData_head
      (((t.rotateLeft f).rotateLeft f).rotateLeft f)
      (Tetromino.tentativeLeft
        (((t.rotateLeft f).rotateLeft f).rotateLeft f))
      hr0c hr4c
      (by rw [Tetromino.tentativeLeft_rotationState]
          exact (leftState_bounds hr0c hr4c).1)
      (by rw [Tetromino.tentativeLeft_rotationState]
          exact (leftState_bounds hr0c hr4c).2)).2
    rw [hsh3, tab1, hst3, Tetromino.tentativeLeft_rotationState, hst3,
      leftState_cycle hr0 hr4] at hmain
    exact hmain
  have p1 : (t.rotateLeft f).pos = t.pos.add (kick0L t) := by
    rw [e1, Tetromino.moveBy_pos, Tetromino.tentativeLeft_pos]
  have p2 : ((t.rotateLeft f).rotateLeft f).pos =
      (t.rotateLeft f).pos.add (kick0L (t.rotateLeft f)) := by
    rw [e2, Tetromino.moveBy_pos, Tetromino.tentativeLeft_pos]
  have p3 : (((t.rotateLeft f).rotateLeft f).rotateLeft f).pos =
      ((t.rotateLeft f).rotateLeft f).pos.add
        (kick0L ((t.rotateLeft f).rotateLeft f)) := by
    rw [e3, Tetromino.moveBy_pos, Tetromino.tentativeLeft_pos]
  constructor
  · rw [e4, Tetromino.moveBy_shape, Tetromino.tentativeLeft_shape, hsh3,
      rotateMatrixLeft_eq, h4S]
  · rw [e4, Tetromino.moveBy_pos, Tetromino.tentativeLeft_pos]
    rw [p3, p2, p1]
    rw [hk1, hk2, hk3, hk4]
    exact pos_telescope _ _ _ _ _

/-- C4: for every piece whose shape is a nonempty rectangular grid and
whose rotation state is in `[0, 4)`, and every board, applying rotate four
times in the same direction returns a piece whose shape and position equal
the original's — provided each intermediate rotation is valid in the sense
that its first wall-kick candidate placement is valid against the board
(on an empty board: the rotation succeeds directly, without falling back
to an alternative kick). -/
theorem rotate_four_cycle (t : Tetromino) (f : Floor) (h w : Nat)
    (hrect : Rect h w t.shape) (hh : 0 < h) (hw : 0 < w)
    (hr0 : 0 ≤ t.rotationState) (hr4 : t.rotationState < 4)
    (HR0 : candOkRight t f = true)
    (HR1 : candOkRight (t.rotateRight f) f = true)
    (HR2 : candOkRight ((t.rotateRight f).rotateRight f) f = true)
    (HR3 : candOkRight
      (((t.rotateRight f).rotateRight f).rotateRight f) f = true)
    (HL0 : candOkLeft t f = true)
    (HL1 : candOkLeft (t.rotateLeft f) f = true)
    (HL2 : candOkLeft ((t.rotateLeft f).rotateLeft f) f = true)
    (HL3 : candOkLeft
      (((t.rotateLeft f).rotateLeft f).rotateLeft f) f = true) :
    (((((t.rotateRight f).rotateRight f).rotateRight f).rotateRight f).shape
        = t.shape ∧
      ((((t.rotateRight f).rotateRight f).rotateRight f).rotateRight f).pos
        = t.pos) ∧
    (((((t.rotateLeft f).rotateLeft f).rotateLeft f).rotateLeft f).shape
        = t.shape ∧
      ((((t.rotateLeft f).rotateLeft f).rotateLeft f).rotateLeft f).pos
        = t.pos) :=
  ⟨rotateRight_four hrect hh hw hr0 hr4 HR0 HR1 HR2 HR3,
   rotateLeft_four hrect hh hw hr0 hr4 HL0 HL1 HL2 HL3⟩

/-- C4 witness: a T piece in mid-board on the empty floor; all four
rotations in either direction succeed on their first kick candidate, and
the four-fold rotation returns the piece's shape and position. -/
theorem rotate_four_cycle_witness :
    let t : Tetromino := ⟨TBlock, Colour.purple, ⟨4, 5⟩, 0⟩
    let f : Floor := makeEmptyFloor
    (Rect 3 3 t.shape ∧ (0 : Int) ≤ t.rotationState ∧ t.rotationState < 4 ∧
      candOkRight t f = true ∧
      candOkRight (t.rotateRight f) f = true ∧
      candOkRight ((t.rotateRight f).rotateRight f) f = true ∧
      candOkRight (((t.rotateRight f).rotateRight f).rotateRight f) f = true ∧
      candOkLeft t f = true ∧
      candOkLeft (t.rotateLeft f) f = true ∧
      candOkLeft ((t.rotateLeft f).rotateLeft f) f = true ∧
      candOkLeft (((t.rotateLeft f).rotateLeft f).rotateLeft f) f = true) ∧
    ((((((t.rotateRight f).rotateRight f).rotateRight f).rotateRight f).shape
        = t.shape ∧
      ((((t.rotateRight f).rotateRight f).rotateRight f).rotateRight f).pos
        = t.pos) ∧
    (((((t.rotateLeft f).rotateLeft f).rotateLeft f).rotateLeft f).shape
        = t.shape ∧
      ((((t.rotateLeft f).rotateLeft f).rotateLeft f).rotateLeft f).pos
        = t.pos)) := by
  intro t f
  refine ⟨⟨⟨rfl, by decide⟩, by decide, by decide, by decide, by decide,
    by decide, by decide, by decide, by decide, by decide, by decide⟩, ?_⟩
  exact rotate_four_cycle t f 3 3 ⟨rfl, by decide⟩ (by decide) (by decide)
    (by decide) (by decide) (by decide) (by decide) (by decide) (by decide)
    (by decide) (by decide) (by decide) (by decide)

end Tetris
